import Mathlib

/-!
Verification of the event-to-interval reducer and MIDI encoder of
`keyboard-rhythm-capture/capture.py`.

Python floats (`time_ms`, `MS_PER_BEAT`) are modelled as rationals;
Python exceptions (`ZeroDivisionError`, `struct.error`, `ValueError`)
are modelled with `Except String`.  Byte strings are `List ℕ` whose
elements are in `[0, 256)` at every point where Python's `bytes` /
`bytearray.append` / `struct.pack` would enforce it.
-/

attribute [local semireducible] Rat.add Rat.sub Rat.mul Rat.inv

set_option maxRecDepth 40000

/-- `InputEvent.event_type` (capture.py line 39). -/
inductive EventType where
  | keydown
  | keyup
  | click
  | scroll
deriving DecidableEq, Repr

/-- `InputEvent.input_type` (capture.py line 40). -/
inductive InputType where
  | space
  | other
  | left_click
  | right_click
  | scroll_up
  | scroll_down
deriving DecidableEq, Repr

/-- `InputEvent` (capture.py lines 36-42). `time_ms` is a float there,
modelled as a rational. -/
structure InputEvent where
  event_type : EventType
  input_type : InputType
  time_ms : ℚ
  key_name : String := ""
deriving DecidableEq, Repr

/-- A note interval as produced by `RecordingSession.get_notes`
(the dicts `{"input_type": ..., "start": ..., "end": ...}`). -/
structure Note where
  input_type : InputType
  start : ℚ
  end_ : ℚ
deriving DecidableEq, Repr

/-- The `pending` dict of `get_notes`: keys in insertion order, each key
mapped to an optional pending start time. -/
abbrev PendDict := List (InputType × Option ℚ)

/-- Python `pending.get(k)`, with `None`-valued and absent keys collapsed
(the source only ever distinguishes them through `in`, i.e. `dmem`). -/
def dget (d : PendDict) (k : InputType) : Option ℚ :=
  match d.find? (fun p => p.1 == k) with
  | some p => p.2
  | none => none

/-- Python `k in pending`. -/
def dmem (d : PendDict) (k : InputType) : Bool :=
  (d.find? (fun p => p.1 == k)).isSome

/-- Python `pending[k] = v`: update in place if the key is present,
otherwise append the new key (dicts preserve insertion order). -/
def dset (d : PendDict) (k : InputType) (v : Option ℚ) : PendDict :=
  match d with
  | [] => [(k, v)]
  | (k', v') :: rest => if k' == k then (k', v) :: rest else (k', v') :: dset rest k v

/-- Initial `pending` dict (capture.py line 69). -/
def initPending : PendDict :=
  [(.space, none), (.other, none), (.left_click, none), (.right_click, none)]

/-- One iteration of the `for event in self.events` loop of `get_notes`
(capture.py lines 71-101), acting on the pair (pending, notes). -/
def processEvent (pending : PendDict) (notes : List Note) (e : InputEvent) :
    PendDict × List Note :=
  match e.event_type with
  | .keydown => (dset pending e.input_type (some e.time_ms), notes)
  | .keyup =>
      match dget pending e.input_type with
      | some s =>
          (dset pending e.input_type none, notes ++ [⟨e.input_type, s, e.time_ms⟩])
      | none => (pending, notes)
  | .click =>
      if dmem pending e.input_type then
        match dget pending e.input_type with
        | none => (dset pending e.input_type (some e.time_ms), notes)
        | some s =>
            (dset pending e.input_type none, notes ++ [⟨e.input_type, s, e.time_ms⟩])
      else (pending, notes)
  | .scroll => (pending, notes ++ [⟨e.input_type, e.time_ms, e.time_ms + 50⟩])

/-- The state after the event loop of `get_notes`. -/
def reduceState (events : List InputEvent) : PendDict × List Note :=
  events.foldl (fun st e => processEvent st.1 st.2 e) (initPending, [])

/-- `final_time` (capture.py line 104): last event's `time_ms`, or 0. -/
def finalTime (events : List InputEvent) : ℚ :=
  match events.getLast? with
  | some e => e.time_ms
  | none => 0

instance : DecidableRel (fun a b : Note => a.start ≤ b.start) :=
  fun a b => inferInstanceAs (Decidable (a.start ≤ b.start))

instance exceptDecEq {ε α : Type} [DecidableEq ε] [DecidableEq α] :
    DecidableEq (Except ε α)
  | .error e, .error f => if h : e = f then .isTrue (by rw [h]) else .isFalse (by simp [h])
  | .error _, .ok _ => .isFalse (by simp)
  | .ok _, .error _ => .isFalse (by simp)
  | .ok a, .ok b => if h : a = b then .isTrue (by rw [h]) else .isFalse (by simp [h])

/-- `RecordingSession.get_notes` (capture.py lines 65-109).  The final
`sorted(notes, key=lambda n: n["start"])` is a stable sort on `start`,
modelled by insertion sort (also stable). -/
def get_notes (events : List InputEvent) : List Note :=
  let st := reduceState events
  let closed := st.2 ++ st.1.filterMap (fun p => p.2.map (fun s => ⟨p.1, s, finalTime events⟩))
  List.insertionSort (fun a b => a.start ≤ b.start) closed

/-- Python's `round` (used at capture.py lines 142 and 188): round half to
even on the exact rational value. -/
def pyRound (q : ℚ) : ℤ :=
  let f := ⌊q⌋
  let r := q - f
  if r < 1/2 then f
  else if 1/2 < r then f + 1
  else if f % 2 = 0 then f else f + 1

/-- `ms_to_ticks` (capture.py lines 141-142) with
`MS_PER_BEAT = 60000 / tempo` and `TICKS_PER_BEAT = 480`. -/
def ms_to_ticks (tempo : ℤ) (ms : ℚ) : ℤ :=
  pyRound ((ms / ((60000 : ℚ) / (tempo : ℚ))) * 480)

/-- The `while value > 0` loop of `encode_vlq` (capture.py lines 117-119),
producing the continuation bytes little-endian first.  `fuel ≥ v` makes the
recursion structural so that it evaluates in the kernel. -/
def vlqLoop (fuel v : ℕ) : List ℕ :=
  match fuel, v with
  | _, 0 => []
  | 0, _ + 1 => []
  | fuel + 1, v + 1 => (((v + 1) % 128) ||| 128) :: vlqLoop fuel ((v + 1) / 128)

/-- `encode_vlq` (capture.py lines 112-120).  Python's `& 0x7F` and `>>= 7`
on a (possibly negative) int are floor-mod and floor-division by 128; the
loop runs only while the shifted value is positive. -/
def encode_vlq (value : ℤ) : List ℕ :=
  let rest := (Int.fdiv value 128).toNat
  ((Int.fmod value 128).toNat :: vlqLoop rest rest).reverse

/-- Big-endian base-128 decoding of a VLQ byte string: 7 data bits per
byte, the high (continuation) bit of every byte is ignored. -/
def decode_vlq (bs : List ℕ) : ℕ :=
  bs.foldl (fun acc b => acc * 128 + b % 128) 0

/-- Big-endian bytes of `x`, `k` bytes wide (`struct.pack('>I', x)` is
`beBytes 4 x`, `struct.pack('>H', x)` is `beBytes 2 x`). -/
def beBytes : ℕ → ℕ → List ℕ
  | 0, _ => []
  | k + 1, x => beBytes k (x / 256) ++ [x % 256]

/-- The integer denoted by a big-endian byte string. -/
def beValue (bs : List ℕ) : ℕ :=
  bs.foldl (fun acc b => acc * 256 + b % 256) 0

/-- `struct.pack('>I', x)`: 4 big-endian bytes, `struct.error` outside
`[0, 2^32)`. -/
def pack4 (x : ℤ) : Except String (List ℕ) :=
  if 0 ≤ x ∧ x < 2 ^ 32 then .ok (beBytes 4 x.toNat) else .error "struct.error"

/-- `struct.pack('>H', x)`: 2 big-endian bytes, `struct.error` outside
`[0, 2^16)`. -/
def pack2 (x : ℤ) : Except String (List ℕ) :=
  if 0 ≤ x ∧ x < 2 ^ 16 then .ok (beBytes 2 x.toNat) else .error "struct.error"

/-- A single value passed to `bytes([...])` / `bytearray.append`:
`ValueError` outside `[0, 256)`. -/
def pyByte (x : ℤ) : Except String ℕ :=
  if 0 ≤ x ∧ x < 256 then .ok x.toNat else .error "ValueError"

/-- UTF-8 bytes of an ASCII track name. -/
def strBytes (s : String) : List ℕ :=
  s.data.map Char.toNat

instance : DecidableRel (fun a b : ℤ × Bool => a.1 ≤ b.1) :=
  fun a b => inferInstanceAs (Decidable (a.1 ≤ b.1))

instance : IsTotal (ℤ × Bool) (fun a b => a.1 ≤ b.1) :=
  ⟨fun a b => le_total a.1 b.1⟩

instance : IsTrans (ℤ × Bool) (fun a b => a.1 ≤ b.1) :=
  ⟨fun _ _ _ hab hbc => le_trans hab hbc⟩

/-- The sorted `midi_events` list of `build_track` (capture.py lines
153-159): per note a note-on at the start tick and a note-off at the end
tick (`true` = `"on"`), then a stable sort on the tick (`list.sort` with a
key is stable, modelled by insertion sort). -/
def midiEvents (tempo : ℤ) (track_notes : List Note) : List (ℤ × Bool) :=
  List.insertionSort (fun a b => a.1 ≤ b.1)
    ((track_notes.map (fun n =>
      [(ms_to_ticks tempo n.start, true), (ms_to_ticks tempo n.end_, false)])).flatten)

/-- The delta-time of each event of `build_track` (capture.py lines
162-172): `last_time` starts at 0 and is the previous event's tick
thereafter, so each event is paired with `time - previous time`. -/
def eventDeltas (evs : List (ℤ × Bool)) : List (ℤ × Bool) :=
  List.zipWith (fun e prev => (e.1 - prev, e.2)) evs (0 :: evs.map Prod.fst)

/-- The status/data bytes of one event (capture.py lines 167-170):
`bytes([0x90, note_num, velocity])` for note-on,
`bytes([0x80, note_num, 0])` for note-off. -/
def statusBytes (note_num velocity : ℤ) (isOn : Bool) : Except String (List ℕ) :=
  if isOn then do
    let n ← pyByte note_num
    let v ← pyByte velocity
    pure [0x90, n, v]
  else do
    let n ← pyByte note_num
    pure [0x80, n, 0]

/-- `build_track` (capture.py lines 144-176).  `tempo` and `velocity` are
captured from the enclosing `generate_midi` scope there and are explicit
arguments here. -/
def build_track (tempo velocity : ℤ) (track_notes : List Note)
    (track_name : List ℕ) (note_num : ℤ) : Except String (List ℕ) := do
  let lenByte ← pyByte (track_name.length : ℤ)
  let body ← (eventDeltas (midiEvents tempo track_notes)).mapM (fun de => do
    let s ← statusBytes note_num velocity de.2
    pure (encode_vlq de.1 ++ s))
  pure ([0x00, 0xFF, 0x03] ++ [lenByte] ++ track_name ++ body.flatten ++
    [0x00, 0xFF, 0x2F, 0x00])

/-- `build_tempo_track` (capture.py lines 178-197). -/
def build_tempo_track (tempo : ℤ) : Except String (List ℕ) := do
  let name := strBytes "Tempo"
  let lenByte ← pyByte (name.length : ℤ)
  let us_per_beat := pyRound ((60000000 : ℚ) / (tempo : ℚ))
  let packed ← pack4 us_per_beat
  pure ([0x00, 0xFF, 0x03] ++ [lenByte] ++ name ++
    [0x00, 0xFF, 0x51, 0x03] ++ packed.drop 1 ++
    [0x00, 0xFF, 0x58, 0x04, 0x04, 0x02, 0x18, 0x08] ++
    [0x00, 0xFF, 0x2F, 0x00])

/-- One `MTrk` chunk (capture.py lines 229-232): marker, 4-byte big-endian
body length, body. -/
def trackChunk (t : List ℕ) : List ℕ :=
  strBytes "MTrk" ++ beBytes 4 t.length ++ t

/-- `generate_midi` (capture.py lines 123-234).  The session contributes
only its event list.  Arguments appear in the Python parameter order.
`60000 / tempo` (line 139) is evaluated before anything else, so
`tempo = 0` raises `ZeroDivisionError` up front. -/
def generate_midi (session : List InputEvent) (tempo : ℤ)
    (other_note space_note velocity : ℤ)
    (left_click_note right_click_note scroll_up_note scroll_down_note : ℤ) :
    Except String (List ℕ) :=
  if tempo = 0 then .error "ZeroDivisionError" else do
  let notes := get_notes session
  let tempo_track ← build_tempo_track tempo
  let other_track ← build_track tempo velocity
    (notes.filter (fun n => n.input_type == .other)) (strBytes "Other Keys") other_note
  let space_track ← build_track tempo velocity
    (notes.filter (fun n => n.input_type == .space)) (strBytes "Space Key") space_note
  let left_click_track ← build_track tempo velocity
    (notes.filter (fun n => n.input_type == .left_click)) (strBytes "Left Click") left_click_note
  let right_click_track ← build_track tempo velocity
    (notes.filter (fun n => n.input_type == .right_click)) (strBytes "Right Click") right_click_note
  let scroll_up_track ← build_track tempo velocity
    (notes.filter (fun n => n.input_type == .scroll_up)) (strBytes "Scroll Up") scroll_up_note
  let scroll_down_track ← build_track tempo velocity
    (notes.filter (fun n => n.input_type == .scroll_down)) (strBytes "Scroll Down") scroll_down_note
  let tracks := [tempo_track, other_track, space_track, left_click_track,
    right_click_track, scroll_up_track, scroll_down_track]
  let h6 ← pack4 6
  let hfmt ← pack2 1
  let hcnt ← pack2 (tracks.length : ℤ)
  let htpb ← pack2 480
  let chunks ← tracks.mapM (fun t => do
    let len ← pack4 (t.length : ℤ)
    pure (strBytes "MTrk" ++ len ++ t))
  pure (strBytes "MThd" ++ h6 ++ hfmt ++ hcnt ++ htpb ++ chunks.flatten)

/-! ## Helper lemmas -/

theorem dget_cons (a : InputType) (b : Option ℚ) (d : PendDict) (k : InputType) :
    dget ((a, b) :: d) k = if a = k then b else dget d k := by
  by_cases h : a = k
  · simp [dget, List.find?_cons_of_pos, h]
  · simp [dget, List.find?_cons_of_neg, h]

theorem dget_dset (d : PendDict) (k : InputType) (v : Option ℚ) :
    dget (dset d k v) k = v := by
  induction d with
  | nil => simp [dget, dset]
  | cons p rest ih =>
      obtain ⟨k', v'⟩ := p
      by_cases h : k' = k
      · subst h
        simp [dset, dget_cons]
      · simp only [dset, beq_iff_eq, h, if_false]
        rw [dget_cons, if_neg h, ih]

theorem decode_vlq_snoc (l : List ℕ) (b : ℕ) :
    decode_vlq (l ++ [b]) = decode_vlq l * 128 + b % 128 := by
  simp [decode_vlq, List.foldl_append]

theorem vlqLoop_zero (fuel : ℕ) : vlqLoop fuel 0 = [] := by
  cases fuel <;> rfl

theorem vlqLoop_succ (fuel v : ℕ) :
    vlqLoop (fuel + 1) (v + 1) = (((v + 1) % 128) ||| 128) :: vlqLoop fuel ((v + 1) / 128) := rfl

theorem lor128_facts :
    ∀ a : Fin 128, (a.val ||| 128) % 128 = a.val ∧ 128 ≤ (a.val ||| 128) ∧ (a.val ||| 128) < 256 := by
  decide

theorem lor128_mod (a : ℕ) (h : a < 128) : (a ||| 128) % 128 = a :=
  (lor128_facts ⟨a, h⟩).1

theorem lor128_ge (a : ℕ) (h : a < 128) : 128 ≤ (a ||| 128) :=
  (lor128_facts ⟨a, h⟩).2.1

theorem lor128_lt (a : ℕ) (h : a < 128) : (a ||| 128) < 256 :=
  (lor128_facts ⟨a, h⟩).2.2

theorem decode_vlqLoop :
    ∀ v fuel, v ≤ fuel → decode_vlq ((vlqLoop fuel v).reverse) = v := by
  intro v
  induction v using Nat.strong_induction_on with
  | _ v ih =>
    match v with
    | 0 => intro fuel _; rw [vlqLoop_zero]; rfl
    | w + 1 =>
      intro fuel hle
      match fuel with
      | 0 => exact absurd hle (by omega)
      | f + 1 =>
        have hdivlt : (w + 1) / 128 < w + 1 := Nat.div_lt_self (Nat.succ_pos w) (by norm_num)
        have hdivle : (w + 1) / 128 ≤ f := by omega
        rw [vlqLoop_succ, List.reverse_cons, decode_vlq_snoc, ih _ hdivlt _ hdivle,
          lor128_mod _ (Nat.mod_lt _ (by norm_num))]
        omega

theorem vlqLoop_mem_bounds :
    ∀ v fuel, v ≤ fuel → ∀ b ∈ vlqLoop fuel v, 128 ≤ b ∧ b < 256 := by
  intro v
  induction v using Nat.strong_induction_on with
  | _ v ih =>
    match v with
    | 0 => intro fuel _ b hb; rw [vlqLoop_zero] at hb; cases hb
    | w + 1 =>
      intro fuel hle b hb
      match fuel with
      | 0 => exact absurd hle (by omega)
      | f + 1 =>
        have hdivlt : (w + 1) / 128 < w + 1 := Nat.div_lt_self (Nat.succ_pos w) (by norm_num)
        have hdivle : (w + 1) / 128 ≤ f := by omega
        rw [vlqLoop_succ] at hb
        rcases List.mem_cons.mp hb with h | h
        · subst h
          exact ⟨lor128_ge _ (Nat.mod_lt _ (by norm_num)),
                 lor128_lt _ (Nat.mod_lt _ (by norm_num))⟩
        · exact ih _ hdivlt _ hdivle b h

theorem int_fmod_natCast (m n : ℕ) : Int.fmod (m : ℤ) (n : ℤ) = ((m % n : ℕ) : ℤ) :=
  (Int.ofNat_fmod m n).symm

theorem int_fdiv_natCast (m n : ℕ) : Int.fdiv (m : ℤ) (n : ℤ) = ((m / n : ℕ) : ℤ) :=
  (Int.ofNat_fdiv m n).symm

theorem fmod128 (m : ℕ) : Int.fmod (m : ℤ) 128 = ((m % 128 : ℕ) : ℤ) :=
  (Int.ofNat_fmod m 128).symm

theorem fdiv128 (m : ℕ) : Int.fdiv (m : ℤ) 128 = ((m / 128 : ℕ) : ℤ) :=
  (Int.ofNat_fdiv m 128).symm

theorem encode_vlq_natCast (v : ℕ) :
    encode_vlq (v : ℤ) = ((v % 128) :: vlqLoop (v / 128) (v / 128)).reverse := by
  unfold encode_vlq
  rw [fmod128, fdiv128, Int.toNat_natCast, Int.toNat_natCast]

theorem decode_encode_vlq (v : ℕ) : decode_vlq (encode_vlq (v : ℤ)) = v := by
  rw [encode_vlq_natCast, List.reverse_cons, decode_vlq_snoc,
    decode_vlqLoop _ _ le_rfl]
  omega

theorem beBytes_length (k : ℕ) : ∀ x, (beBytes k x).length = k := by
  induction k with
  | zero => intro x; rfl
  | succ k ih => intro x; simp [beBytes, ih]

theorem beValue_snoc (l : List ℕ) (b : ℕ) :
    beValue (l ++ [b]) = beValue l * 256 + b % 256 := by
  simp [beValue, List.foldl_append]

theorem beValue_beBytes (k : ℕ) : ∀ x, beValue (beBytes k x) = x % 256 ^ k := by
  induction k with
  | zero => intro x; simp [beBytes, beValue, Nat.mod_one]
  | succ k ih =>
      intro x
      rw [beBytes, beValue_snoc, ih, Nat.mod_mod x 256, pow_succ,
        mul_comm (256 ^ k) 256, Nat.mod_mul]
      ring

theorem beBytes_four_drop (x : ℕ) : (beBytes 4 x).drop 1 = beBytes 3 x := by
  simp [beBytes]

theorem pyRound_nonneg {q : ℚ} (h : 0 ≤ q) : 0 ≤ pyRound q := by
  have hf : (0 : ℤ) ≤ ⌊q⌋ := Int.floor_nonneg.mpr h
  unfold pyRound
  dsimp only
  split_ifs <;> omega

theorem pyRound_le_floor_add_one (q : ℚ) : pyRound q ≤ ⌊q⌋ + 1 := by
  unfold pyRound
  dsimp only
  split_ifs <;> omega

theorem ms_to_ticks_nonneg (tempo : ℤ) (ms : ℚ) (ht : 0 < tempo) (hm : 0 ≤ ms) :
    0 ≤ ms_to_ticks tempo ms := by
  have htq : (0 : ℚ) < (tempo : ℚ) := by exact_mod_cast ht
  apply pyRound_nonneg
  positivity

theorem pyByte_ok (x : ℤ) (h0 : 0 ≤ x) (h1 : x < 256) : pyByte x = .ok x.toNat := by
  simp [pyByte, h0, h1]

theorem pack4_ok (x : ℤ) (h0 : 0 ≤ x) (h1 : x < 2 ^ 32) :
    pack4 x = .ok (beBytes 4 x.toNat) := by
  unfold pack4
  rw [if_pos ⟨h0, h1⟩]

theorem pack4_len (t : List ℕ) (h : t.length < 2 ^ 32) :
    pack4 (t.length : ℤ) = .ok (beBytes 4 t.length) := by
  rw [pack4_ok _ (Int.natCast_nonneg _) (by exact_mod_cast h), Int.toNat_natCast]

theorem midiEvents_sorted (tempo : ℤ) (ns : List Note) :
    List.Sorted (fun a b : ℤ × Bool => a.1 ≤ b.1) (midiEvents tempo ns) :=
  List.sorted_insertionSort _ _

theorem midiEvents_time_nonneg (tempo : ℤ) (ns : List Note) (ht : 0 < tempo)
    (hn : ∀ n ∈ ns, 0 ≤ n.start ∧ 0 ≤ n.end_) :
    ∀ e ∈ midiEvents tempo ns, 0 ≤ e.1 := by
  intro e he
  rw [midiEvents, (List.perm_insertionSort _ _).mem_iff] at he
  obtain ⟨l, hl, hel⟩ := List.mem_flatten.mp he
  obtain ⟨n, hmem, rfl⟩ := List.mem_map.mp hl
  simp only [List.mem_cons, List.not_mem_nil, or_false] at hel
  rcases hel with rfl | rfl
  · exact ms_to_ticks_nonneg _ _ ht (hn n hmem).1
  · exact ms_to_ticks_nonneg _ _ ht (hn n hmem).2

theorem zip_deltas_nonneg :
    ∀ (l : List (ℤ × Bool)) (prev : ℤ),
      List.Chain (fun a b : ℤ => a ≤ b) prev (l.map Prod.fst) →
      ∀ de ∈ List.zipWith (fun e p => (e.1 - p, e.2)) l (prev :: l.map Prod.fst), 0 ≤ de.1 := by
  intro l
  induction l with
  | nil => intro prev _ de hde; simp at hde
  | cons e rest ih =>
      intro prev hchain de hde
      rw [List.map_cons, List.chain_cons] at hchain
      rw [List.map_cons, List.zipWith_cons_cons] at hde
      rcases List.mem_cons.mp hde with h | h
      · subst h; simpa using sub_nonneg.mpr hchain.1
      · exact ih e.1 hchain.2 de h

/-! ## Claims -/

/-- A session holding one space-key press from 0ms to 250ms. -/
def sessSpace : List InputEvent :=
  [⟨.keydown, .space, 0, ""⟩, ⟨.keyup, .space, 250, ""⟩]

/-- The event sequence of claim C2: down, duplicate down, up on one key. -/
def c2Events : List InputEvent :=
  [⟨.keydown, .space, 0, ""⟩, ⟨.keydown, .space, 5, ""⟩, ⟨.keyup, .space, 10, ""⟩]

/-- C2 counterexample: on `[down(k,0), down(k,5), up(k,10)]` the reducer does
not return the claimed interval `{k,0,10}`; the duplicate `down` overwrites
the pending start, giving `{k,5,10}`. -/
theorem C2_counterexample :
    get_notes c2Events ≠ [⟨.space, 0, 10⟩] ∧
    get_notes c2Events = [⟨.space, 5, 10⟩] := by
  exact ⟨by decide, by decide⟩

/-- C2 amended: a `keydown` always overwrites the channel's pending start
with the event's time (no duplicate suppression in `get_notes`) and emits
nothing, so `[down(k,0), down(k,5), up(k,10)]` yields the single interval
`{k,5,10}`. -/
theorem C2_amended_overwrite :
    (∀ (pending : PendDict) (notes : List Note) (it : InputType) (t : ℚ) (lbl : String),
      dget (processEvent pending notes ⟨.keydown, it, t, lbl⟩).1 it = some t ∧
      (processEvent pending notes ⟨.keydown, it, t, lbl⟩).2 = notes) ∧
    get_notes c2Events = [⟨.space, 5, 10⟩] := by
  exact ⟨fun pending notes it t lbl => ⟨dget_dset pending it (some t), rfl⟩, by decide⟩

/-- C3: one space interval 0ms-250ms at 120 BPM, note 36, velocity 100: the
space track body is the name meta event, then delta 0 with `90 24 64`, then
delta 240 ticks (`round(250/500*480)`, VLQ `81 70`) with `80 24 00`, then
end-of-track `00 FF 2F 00`. -/
theorem C3_space_track_bytes :
    get_notes sessSpace = [⟨.space, 0, 250⟩] ∧
    (get_notes sessSpace).filter (fun n => n.input_type == .space) = [⟨.space, 0, 250⟩] ∧
    ms_to_ticks 120 250 = 240 ∧
    encode_vlq (ms_to_ticks 120 250) = [0x81, 0x70] ∧
    build_track 120 100 [⟨.space, 0, 250⟩] (strBytes "Space Key") 36 =
      .ok ([0x00, 0xFF, 0x03, 0x09] ++ strBytes "Space Key" ++
        [0x00, 0x90, 0x24, 0x64] ++ [0x81, 0x70, 0x80, 0x24, 0x00] ++
        [0x00, 0xFF, 0x2F, 0x00]) := by
  exact ⟨by decide, by decide, by decide, by decide, by decide⟩

/-- C4: decoding an encoded VLQ gives the value back for every natural
number; the encoding ends in one byte with clear high bit preceded only by
bytes with the continuation bit set; and the boundary values 0, 127, 128,
16383, 16384 encode to the specified bytes. -/
theorem C4_vlq_roundtrip_and_boundaries :
    (∀ v : ℕ, decode_vlq (encode_vlq (v : ℤ)) = v) ∧
    (∀ v : ℕ, ∃ bs b, encode_vlq (v : ℤ) = bs ++ [b] ∧ b < 128 ∧
      ∀ c ∈ bs, 128 ≤ c ∧ c < 256) ∧
    encode_vlq 0 = [0x00] ∧ encode_vlq 127 = [0x7F] ∧
    encode_vlq 128 = [0x81, 0x00] ∧ encode_vlq 16383 = [0xFF, 0x7F] ∧
    encode_vlq 16384 = [0x81, 0x80, 0x00] := by
  refine ⟨decode_encode_vlq, ?_, by decide, by decide, by decide, by decide, by decide⟩
  intro v
  refine ⟨(vlqLoop (v / 128) (v / 128)).reverse, v % 128, ?_,
    Nat.mod_lt _ (by norm_num), ?_⟩
  · rw [encode_vlq_natCast, List.reverse_cons]
  · intro c hc
    exact vlqLoop_mem_bounds _ _ le_rfl c (List.mem_reverse.mp hc)

/-- C5: any channel still holding a pending open start after the event loop
contributes a force-closed interval ending at the final time, so the output
of `get_notes` never loses an opened interval. -/
theorem C5_no_unterminated_interval (events : List InputEvent) (c : InputType) (s : ℚ)
    (h : dget (reduceState events).1 c = some s) :
    (⟨c, s, finalTime events⟩ : Note) ∈ get_notes events := by
  unfold get_notes
  rw [(List.perm_insertionSort _ _).mem_iff]
  apply List.mem_append_right
  rcases hfind : (reduceState events).1.find? (fun p => p.1 == c) with _ | p
  · unfold dget at h
    rw [hfind] at h
    exact absurd (show (none : Option ℚ) = some s from h) (by simp)
  · unfold dget at h
    rw [hfind] at h
    have h2 : p.2 = some s := h
    have hkey : p.1 = c := by
      have := List.find?_some hfind
      simpa [beq_iff_eq] using this
    have hmem : p ∈ (reduceState events).1 := List.mem_of_find?_eq_some hfind
    apply List.mem_filterMap.mpr
    exact ⟨p, hmem, by rw [h2]; simp [hkey]⟩

theorem C5_witness :
    (⟨.space, 0, 0⟩ : Note) ∈ get_notes [⟨.keydown, .space, 0, ""⟩] :=
  C5_no_unterminated_interval [⟨.keydown, .space, 0, ""⟩] .space 0 (by decide)

/-- C6: the reducer force-closes every pending channel at the last event's
offset: `[down(space,0), up(space,100), down(space,150)]` yields exactly
`[{space,0,100}, {space,150,150}]`, and the closing time is the last
event's `time_ms` (0 for an empty sequence). -/
theorem C6_force_close_at_last_event :
    get_notes [⟨.keydown, .space, 0, ""⟩, ⟨.keyup, .space, 100, ""⟩,
               ⟨.keydown, .space, 150, ""⟩] =
      [⟨.space, 0, 100⟩, ⟨.space, 150, 150⟩] ∧
    finalTime [] = 0 ∧
    (∀ (l : List InputEvent) (e : InputEvent), finalTime (l ++ [e]) = e.time_ms) := by
  refine ⟨by decide, rfl, fun l e => ?_⟩
  simp [finalTime, List.getLast?_concat]

theorem except_bind_ok {ε α β : Type} (a : α) (f : α → Except ε β) :
    (Except.ok a : Except ε α) >>= f = f a := rfl

theorem except_bind_error {ε α β : Type} (e : ε) (f : α → Except ε β) :
    (Except.error e : Except ε α) >>= f = Except.error e := rfl

/-- The bytes produced for `sessSpace` at tempo 120, notes 38/36, velocity
200 (out of the 1-127 range; byte 200 appears in the note-on event). -/
def c1VelocityBytes : List ℕ :=
  [77, 84, 104, 100, 0, 0, 0, 6, 0, 1, 0, 7, 1, 224,
   77, 84, 114, 107, 0, 0, 0, 28, 0, 255, 3, 5, 84, 101, 109, 112, 111,
   0, 255, 81, 3, 7, 161, 32, 0, 255, 88, 4, 4, 2, 24, 8, 0, 255, 47, 0,
   77, 84, 114, 107, 0, 0, 0, 18, 0, 255, 3, 10, 79, 116, 104, 101, 114, 32,
   75, 101, 121, 115, 0, 255, 47, 0,
   77, 84, 114, 107, 0, 0, 0, 26, 0, 255, 3, 9, 83, 112, 97, 99, 101, 32, 75,
   101, 121, 0, 144, 36, 200, 129, 112, 128, 36, 0, 0, 255, 47, 0,
   77, 84, 114, 107, 0, 0, 0, 18, 0, 255, 3, 10, 76, 101, 102, 116, 32, 67,
   108, 105, 99, 107, 0, 255, 47, 0,
   77, 84, 114, 107, 0, 0, 0, 19, 0, 255, 3, 11, 82, 105, 103, 104, 116, 32,
   67, 108, 105, 99, 107, 0, 255, 47, 0,
   77, 84, 114, 107, 0, 0, 0, 17, 0, 255, 3, 9, 83, 99, 114, 111, 108, 108,
   32, 85, 112, 0, 255, 47, 0,
   77, 84, 114, 107, 0, 0, 0, 19, 0, 255, 3, 11, 83, 99, 114, 111, 108, 108,
   32, 68, 111, 119, 110, 0, 255, 47, 0]

/-- C1 counterexample: a velocity of 200 (outside 1-127) is not rejected by
`generate_midi`: the call returns a complete, non-empty byte sequence, with
the out-of-range byte 200 embedded in the space track's note-on event. -/
theorem C1_counterexample :
    generate_midi sessSpace 120 38 36 200 40 41 42 44 = .ok c1VelocityBytes ∧
    (200 : ℕ) ∈ c1VelocityBytes ∧ c1VelocityBytes ≠ [] := by
  exact ⟨by decide, by decide, by decide⟩

/-- C1 amended: `generate_midi` performs no configuration validation.
`tempo = 0` fails only because `60000 / tempo` raises `ZeroDivisionError`;
a negative tempo fails only when `struct.pack` rejects the negative
microseconds-per-beat value (in both cases the function raises, so no bytes
are returned); and a velocity outside 1-127 is accepted silently, its byte
emitted into the output. -/
theorem C1_amended_no_validation :
    (∀ (session : List InputEvent) (a b v c d e f : ℤ),
      generate_midi session 0 a b v c d e f = .error "ZeroDivisionError") ∧
    (∀ session : List InputEvent,
      generate_midi session (-60) 38 36 100 40 41 42 44 = .error "struct.error") ∧
    generate_midi sessSpace 120 38 36 200 40 41 42 44 = .ok c1VelocityBytes := by
  refine ⟨fun session a b v c d e f => ?_, fun session => ?_, by decide⟩
  · unfold generate_midi
    rw [if_pos rfl]
  · have hbt : build_tempo_track (-60) = .error "struct.error" := by decide
    unfold generate_midi
    rw [if_neg (by decide)]
    simp [hbt, except_bind_error]

/-- C8 counterexample: at tempo 1 `round(60000000/1) = 60000000 ≥ 2^24`, and
`struct.pack('>I', ...)[1:]` keeps only the low three bytes `93 87 00`,
denoting 9668352, not 60000000: the payload is not the claimed value. -/
theorem C8_counterexample :
    build_tempo_track 1 =
      .ok ([0x00, 0xFF, 0x03, 0x05] ++ strBytes "Tempo" ++ [0x00, 0xFF, 0x51, 0x03] ++
        [0x93, 0x87, 0x00] ++ [0x00, 0xFF, 0x58, 0x04, 0x04, 0x02, 0x18, 0x08] ++
        [0x00, 0xFF, 0x2F, 0x00]) ∧
    pyRound ((60000000 : ℚ) / ((1 : ℤ) : ℚ)) = 60000000 ∧
    beValue [0x93, 0x87, 0x00] = 9668352 ∧ (9668352 : ℕ) ≠ 60000000 := by
  exact ⟨by decide, by decide, by decide, by decide⟩

/-- C8 amended: the set-tempo payload is the low 3 bytes of
`round(60000000/tempo)`, i.e. that value mod 2^24 (equal to the full value
whenever it fits in 3 bytes, e.g. 500000 = `07 A1 20` at 120 BPM). -/
theorem C8_amended_tempo_payload :
    (build_tempo_track 120 =
      .ok ([0x00, 0xFF, 0x03, 0x05] ++ strBytes "Tempo" ++ [0x00, 0xFF, 0x51, 0x03] ++
        [0x07, 0xA1, 0x20] ++ [0x00, 0xFF, 0x58, 0x04, 0x04, 0x02, 0x18, 0x08] ++
        [0x00, 0xFF, 0x2F, 0x00]) ∧
      beValue [0x07, 0xA1, 0x20] = 500000 ∧
      pyRound ((60000000 : ℚ) / ((120 : ℤ) : ℚ)) = 500000) ∧
    (∀ tempo : ℤ, 0 < tempo →
      ∃ payload : List ℕ,
        build_tempo_track tempo =
          .ok ([0x00, 0xFF, 0x03, 0x05] ++ strBytes "Tempo" ++ [0x00, 0xFF, 0x51, 0x03] ++
            payload ++ [0x00, 0xFF, 0x58, 0x04, 0x04, 0x02, 0x18, 0x08] ++
            [0x00, 0xFF, 0x2F, 0x00]) ∧
        payload.length = 3 ∧
        beValue payload = (pyRound ((60000000 : ℚ) / (tempo : ℚ))).toNat % 2 ^ 24 ∧
        ((pyRound ((60000000 : ℚ) / (tempo : ℚ))).toNat < 2 ^ 24 →
          beValue payload = (pyRound ((60000000 : ℚ) / (tempo : ℚ))).toNat)) := by
  refine ⟨⟨by decide, by decide, by decide⟩, fun tempo ht => ?_⟩
  have htq : (0 : ℚ) < (tempo : ℚ) := by exact_mod_cast ht
  have h0 : 0 ≤ pyRound ((60000000 : ℚ) / (tempo : ℚ)) := pyRound_nonneg (by positivity)
  have hq_le : (60000000 : ℚ) / (tempo : ℚ) ≤ 60000000 := by
    apply div_le_self (by norm_num)
    exact_mod_cast ht
  have hfl : ⌊(60000000 : ℚ) / (tempo : ℚ)⌋ ≤ 60000000 := by
    calc ⌊(60000000 : ℚ) / (tempo : ℚ)⌋ ≤ ⌊(60000000 : ℚ)⌋ := Int.floor_le_floor hq_le
    _ = 60000000 := by norm_num
  have h1 : pyRound ((60000000 : ℚ) / (tempo : ℚ)) < 2 ^ 32 :=
    lt_of_le_of_lt (pyRound_le_floor_add_one _) (by omega)
  refine ⟨(beBytes 4 (pyRound ((60000000 : ℚ) / (tempo : ℚ))).toNat).drop 1, ?_, ?_, ?_, ?_⟩
  · unfold build_tempo_track
    dsimp only
    rw [show pyByte (((strBytes "Tempo").length : ℕ) : ℤ) = Except.ok 5 from by decide,
      except_bind_ok, pack4_ok _ h0 h1, except_bind_ok]
    simp [strBytes]
    rfl
  · simp [beBytes_length]
  · rw [beBytes_four_drop, beValue_beBytes]
    norm_num
  · intro hlt
    rw [beBytes_four_drop, beValue_beBytes]
    norm_num
    omega

theorem C8_witness :
    ∃ payload : List ℕ,
      build_tempo_track 120 =
        .ok ([0x00, 0xFF, 0x03, 0x05] ++ strBytes "Tempo" ++ [0x00, 0xFF, 0x51, 0x03] ++
          payload ++ [0x00, 0xFF, 0x58, 0x04, 0x04, 0x02, 0x18, 0x08] ++
          [0x00, 0xFF, 0x2F, 0x00]) ∧
      payload.length = 3 ∧
      beValue payload = (pyRound ((60000000 : ℚ) / ((120 : ℤ) : ℚ))).toNat % 2 ^ 24 ∧
      ((pyRound ((60000000 : ℚ) / ((120 : ℤ) : ℚ))).toNat < 2 ^ 24 →
        beValue payload = (pyRound ((60000000 : ℚ) / ((120 : ℤ) : ℚ))).toNat) :=
  C8_amended_tempo_payload.2 120 (by decide)

/-- C9: within a track, the point events are sorted by tick, the running
previous-event time starts at 0, and so every delta-time handed to
`encode_vlq` is non-negative (for a track whose interval endpoints are
non-negative and a positive tempo). -/
theorem C9_deltas_nonneg (tempo : ℤ) (track_notes : List Note) (ht : 0 < tempo)
    (hn : ∀ n ∈ track_notes, 0 ≤ n.start ∧ 0 ≤ n.end_) :
    ((midiEvents tempo track_notes).map Prod.fst).Sorted (fun a b : ℤ => a ≤ b) ∧
    ∀ de ∈ eventDeltas (midiEvents tempo track_notes), 0 ≤ de.1 := by
  have hsorted := midiEvents_sorted tempo track_notes
  have hmap : ((midiEvents tempo track_notes).map Prod.fst).Sorted (fun a b : ℤ => a ≤ b) :=
    List.pairwise_map.mpr hsorted
  refine ⟨hmap, ?_⟩
  have hnn := midiEvents_time_nonneg tempo track_notes ht hn
  have hchain : List.Chain (fun a b : ℤ => a ≤ b) 0
      ((midiEvents tempo track_notes).map Prod.fst) := by
    rw [List.chain_iff_pairwise]
    refine List.Pairwise.cons (fun t htm => ?_) hmap
    obtain ⟨e, he, rfl⟩ := List.mem_map.mp htm
    exact hnn e he
  intro de hde
  exact zip_deltas_nonneg _ 0 hchain de hde

theorem C9_witness :
    ((midiEvents 120 [⟨.space, 0, 250⟩]).map Prod.fst).Sorted (fun a b : ℤ => a ≤ b) ∧
    ∀ de ∈ eventDeltas (midiEvents 120 [⟨.space, 0, 250⟩]), 0 ≤ de.1 :=
  C9_deltas_nonneg 120 [⟨.space, 0, 250⟩] (by decide) (by decide)

/-- The bytes produced for the empty session with the default settings. -/
def emptySessionBytes : List ℕ :=
  [77, 84, 104, 100, 0, 0, 0, 6, 0, 1, 0, 7, 1, 224,
   77, 84, 114, 107, 0, 0, 0, 28, 0, 255, 3, 5, 84, 101, 109, 112, 111,
   0, 255, 81, 3, 7, 161, 32, 0, 255, 88, 4, 4, 2, 24, 8, 0, 255, 47, 0,
   77, 84, 114, 107, 0, 0, 0, 18, 0, 255, 3, 10, 79, 116, 104, 101, 114, 32,
   75, 101, 121, 115, 0, 255, 47, 0,
   77, 84, 114, 107, 0, 0, 0, 17, 0, 255, 3, 9, 83, 112, 97, 99, 101, 32, 75,
   101, 121, 0, 255, 47, 0,
   77, 84, 114, 107, 0, 0, 0, 18, 0, 255, 3, 10, 76, 101, 102, 116, 32, 67,
   108, 105, 99, 107, 0, 255, 47, 0,
   77, 84, 114, 107, 0, 0, 0, 19, 0, 255, 3, 11, 82, 105, 103, 104, 116, 32,
   67, 108, 105, 99, 107, 0, 255, 47, 0,
   77, 84, 114, 107, 0, 0, 0, 17, 0, 255, 3, 9, 83, 99, 114, 111, 108, 108,
   32, 85, 112, 0, 255, 47, 0,
   77, 84, 114, 107, 0, 0, 0, 19, 0, 255, 3, 11, 83, 99, 114, 111, 108, 108,
   32, 68, 111, 119, 110, 0, 255, 47, 0]

/-- C10: every channel track built from an empty interval list is exactly
the track-name meta event plus end-of-track, and the empty session still
produces all 7 chunks in the fixed order Tempo, Other Keys, Space Key,
Left Click, Right Click, Scroll Up, Scroll Down. -/
theorem C10_fixed_seven_tracks :
    (∀ (tempo velocity note_num : ℤ) (name : List ℕ), name.length < 256 →
      build_track tempo velocity [] name note_num =
        .ok ([0x00, 0xFF, 0x03] ++ [name.length] ++ name ++ [0x00, 0xFF, 0x2F, 0x00])) ∧
    generate_midi [] 120 38 36 100 40 41 42 44 = .ok emptySessionBytes := by
  constructor
  · intro tempo velocity note_num name hname
    unfold build_track
    rw [pyByte_ok _ (Int.natCast_nonneg _) (by exact_mod_cast hname)]
    simp [midiEvents, eventDeltas, except_bind_ok, Int.toNat_natCast,
      List.mapM.loop, Except.map, List.insertionSort]
  · decide

theorem C10_witness :
    build_track 120 100 [] (strBytes "Other Keys") 38 =
      .ok ([0x00, 0xFF, 0x03] ++ [(strBytes "Other Keys").length] ++ strBytes "Other Keys" ++
        [0x00, 0xFF, 0x2F, 0x00]) :=
  C10_fixed_seven_tracks.1 120 100 38 (strBytes "Other Keys") (by decide)

/-- C7: whenever the seven track builders succeed, `generate_midi` returns
the header `MThd`, big-endian length 6, format 1, track count 1 + 6 (meta
track plus the six channel tracks), 480 ticks per quarter, followed by the
seven `MTrk`-wrapped chunks with the tempo track first and the channel
tracks after it in order. -/
theorem C7_container_layout (session : List InputEvent) (tempo : ℤ)
    (other_note space_note velocity left_click_note right_click_note
      scroll_up_note scroll_down_note : ℤ)
    (t0 t1 t2 t3 t4 t5 t6 : List ℕ)
    (ht : tempo ≠ 0)
    (h0 : build_tempo_track tempo = .ok t0)
    (h1 : build_track tempo velocity
      ((get_notes session).filter (fun n => n.input_type == .other))
      (strBytes "Other Keys") other_note = .ok t1)
    (h2 : build_track tempo velocity
      ((get_notes session).filter (fun n => n.input_type == .space))
      (strBytes "Space Key") space_note = .ok t2)
    (h3 : build_track tempo velocity
      ((get_notes session).filter (fun n => n.input_type == .left_click))
      (strBytes "Left Click") left_click_note = .ok t3)
    (h4 : build_track tempo velocity
      ((get_notes session).filter (fun n => n.input_type == .right_click))
      (strBytes "Right Click") right_click_note = .ok t4)
    (h5 : build_track tempo velocity
      ((get_notes session).filter (fun n => n.input_type == .scroll_up))
      (strBytes "Scroll Up") scroll_up_note = .ok t5)
    (h6 : build_track tempo velocity
      ((get_notes session).filter (fun n => n.input_type == .scroll_down))
      (strBytes "Scroll Down") scroll_down_note = .ok t6)
    (hl0 : t0.length < 2 ^ 32) (hl1 : t1.length < 2 ^ 32) (hl2 : t2.length < 2 ^ 32)
    (hl3 : t3.length < 2 ^ 32) (hl4 : t4.length < 2 ^ 32) (hl5 : t5.length < 2 ^ 32)
    (hl6 : t6.length < 2 ^ 32) :
    generate_midi session tempo other_note space_note velocity left_click_note
      right_click_note scroll_up_note scroll_down_note =
      .ok (strBytes "MThd" ++ beBytes 4 6 ++ beBytes 2 1 ++ beBytes 2 (1 + 6) ++
        beBytes 2 480 ++
        (trackChunk t0 ++ trackChunk t1 ++ trackChunk t2 ++ trackChunk t3 ++
          trackChunk t4 ++ trackChunk t5 ++ trackChunk t6)) := by
  unfold generate_midi
  rw [if_neg ht]
  dsimp only
  rw [h0, except_bind_ok, h1, except_bind_ok, h2, except_bind_ok, h3, except_bind_ok,
    h4, except_bind_ok, h5, except_bind_ok, h6, except_bind_ok]
  have hmapM : List.mapM (fun t => do
        let len ← pack4 (t.length : ℤ)
        pure (strBytes "MTrk" ++ len ++ t)) [t0, t1, t2, t3, t4, t5, t6] =
      Except.ok [strBytes "MTrk" ++ beBytes 4 t0.length ++ t0,
        strBytes "MTrk" ++ beBytes 4 t1.length ++ t1,
        strBytes "MTrk" ++ beBytes 4 t2.length ++ t2,
        strBytes "MTrk" ++ beBytes 4 t3.length ++ t3,
        strBytes "MTrk" ++ beBytes 4 t4.length ++ t4,
        strBytes "MTrk" ++ beBytes 4 t5.length ++ t5,
        strBytes "MTrk" ++ beBytes 4 t6.length ++ t6] := by
    simp only [List.mapM_cons, List.mapM_nil, pack4_len t0 hl0, pack4_len t1 hl1,
      pack4_len t2 hl2, pack4_len t3 hl3, pack4_len t4 hl4, pack4_len t5 hl5,
      pack4_len t6 hl6, except_bind_ok]
    rfl
  rw [show pack4 6 = Except.ok (beBytes 4 6) from by decide, except_bind_ok,
    show pack2 1 = Except.ok (beBytes 2 1) from by decide, except_bind_ok]
  simp only [List.length_cons, List.length_nil]
  rw [show pack2 (((0 + 1 + 1 + 1 + 1 + 1 + 1 + 1 : ℕ) : ℤ)) = Except.ok (beBytes 2 7)
      from by decide, except_bind_ok,
    show pack2 480 = Except.ok (beBytes 2 480) from by decide, except_bind_ok,
    hmapM, except_bind_ok]
  simp only [trackChunk, List.flatten, List.append_assoc, List.append_nil]
  rfl

/-- Concrete track bodies for `sessSpace` at the default export settings. -/
def tempoBody120 : List ℕ :=
  [0, 255, 3, 5, 84, 101, 109, 112, 111, 0, 255, 81, 3, 7, 161, 32,
   0, 255, 88, 4, 4, 2, 24, 8, 0, 255, 47, 0]

def otherBodyEmpty : List ℕ :=
  [0, 255, 3, 10, 79, 116, 104, 101, 114, 32, 75, 101, 121, 115, 0, 255, 47, 0]

def spaceBody250 : List ℕ :=
  [0, 255, 3, 9, 83, 112, 97, 99, 101, 32, 75, 101, 121,
   0, 144, 36, 100, 129, 112, 128, 36, 0, 0, 255, 47, 0]

def leftClickBodyEmpty : List ℕ :=
  [0, 255, 3, 10, 76, 101, 102, 116, 32, 67, 108, 105, 99, 107, 0, 255, 47, 0]

def rightClickBodyEmpty : List ℕ :=
  [0, 255, 3, 11, 82, 105, 103, 104, 116, 32, 67, 108, 105, 99, 107, 0, 255, 47, 0]

def scrollUpBodyEmpty : List ℕ :=
  [0, 255, 3, 9, 83, 99, 114, 111, 108, 108, 32, 85, 112, 0, 255, 47, 0]

def scrollDownBodyEmpty : List ℕ :=
  [0, 255, 3, 11, 83, 99, 114, 111, 108, 108, 32, 68, 111, 119, 110, 0, 255, 47, 0]

theorem C7_witness :
    generate_midi sessSpace 120 38 36 100 40 41 42 44 =
      .ok (strBytes "MThd" ++ beBytes 4 6 ++ beBytes 2 1 ++ beBytes 2 (1 + 6) ++
        beBytes 2 480 ++
        (trackChunk tempoBody120 ++ trackChunk otherBodyEmpty ++ trackChunk spaceBody250 ++
          trackChunk leftClickBodyEmpty ++ trackChunk rightClickBodyEmpty ++
          trackChunk scrollUpBodyEmpty ++ trackChunk scrollDownBodyEmpty)) :=
  C7_container_layout sessSpace 120 38 36 100 40 41 42 44
    tempoBody120 otherBodyEmpty spaceBody250 leftClickBodyEmpty rightClickBodyEmpty
    scrollUpBodyEmpty scrollDownBodyEmpty
    (by decide) (by decide) (by decide) (by decide) (by decide) (by decide) (by decide)
    (by decide) (by decide) (by decide) (by decide) (by decide) (by decide) (by decide)
    (by decide)
